import Mathlib

/-!
Verification of the station-matching and temporal-join core of the
Railway-FMI data fusion program (src/cross_data/cross_functions.py).

The Python functions `match_train_with_ems` (with its inner
`find_closest_ems`) and `merge_train_weather_data` (with its inner
`find_closest_weather`) are embedded shallowly:

* pandas DataFrames become `DF` (a column list plus association-list rows)
  or plain lists of records;
* floating-point coordinates and distances become `Rat`; the haversine
  call is a parameter `dist`, since the claims concern the selection
  logic, not trigonometry;
* timestamps become `Int` instants; `pd.to_datetime(..., errors="coerce")`
  becomes `toDatetime` over a `TsVal` that is either a raw string, a
  parsed instant, or `NaT`; the two string parsers of the source
  (`datetime.strptime`, `pd.to_datetime`) are a parameter
  `P : String → Option Int`;
* Python exceptions become `Except`: `KeyError` from `DataFrame.drop`,
  `ValueError` from `strptime` (propagating out of the merge loop), and
  `IndexError` from `iloc`;
* the in-place mutation of `fmi_data["timestamp"]` is modelled by
  returning the converted observation table next to the train table.
-/

namespace RailwayFMI

/-- A DataFrame cell: string, numeric, Python `None`, or `float("inf")`. -/
inductive Val where
  | str (s : String)
  | num (q : Rat)
  | null
  | inf
deriving DecidableEq

/-- A DataFrame row as an association list from column name to cell. -/
abbrev Row := List (String × Val)

/-- A pandas DataFrame: named columns and a list of rows. -/
structure DF where
  columns : List String
  rows : List Row
deriving DecidableEq

/-- Errors surfaced by the station matcher (`KeyError` from
`DataFrame.drop` on a missing label, type confusion on a coordinate). -/
inductive CrossErr where
  | keyError (cols : List String)
  | typeError (col : String)
deriving DecidableEq

/-- Effectful map over a list, stopping at the first error: the shape of
every sequential Python `for` loop in the source. -/
def mapE (f : α → Except ε β) : List α → Except ε (List β)
  | [] => .ok []
  | x :: xs =>
    match f x with
    | .error e => .error e
    | .ok y =>
      match mapE f xs with
      | .error e => .error e
      | .ok ys => .ok (y :: ys)

/-- Decidable equality of `Except` results, for evaluating the embedded
functions on concrete inputs. -/
instance {ε α : Type} [DecidableEq ε] [DecidableEq α] : DecidableEq (Except ε α)
  | .ok a, .ok b =>
    if h : a = b then .isTrue (congrArg Except.ok h)
    else .isFalse (fun hc => h (by cases hc; rfl))
  | .ok _, .error _ => .isFalse (fun hc => Except.noConfusion hc)
  | .error _, .ok _ => .isFalse (fun hc => Except.noConfusion hc)
  | .error a, .error b =>
    if h : a = b then .isTrue (congrArg Except.error h)
    else .isFalse (fun hc => h (by cases hc; rfl))

/-- A weather (EMS) station registry record. -/
structure EmsRow where
  station_name : String
  latitude : Rat
  longitude : Rat
deriving DecidableEq

/-- Default EMS record used with `List.getD`. -/
def emsDefault : EmsRow := ⟨"", 0, 0⟩

/-- The tuple `(ems["station_name"], ems["latitude"], ems["longitude"],
haversine(train, ems))` recorded when the loop takes a new minimum. -/
def emsEntry (dist : Rat × Rat → Rat × Rat → Rat) (train : Rat × Rat) (e : EmsRow) :
    String × Rat × Rat × Rat :=
  (e.station_name, e.latitude, e.longitude, dist train (e.latitude, e.longitude))

/-- The `for _, ems in ems_stations.iterrows()` loop of `find_closest_ems`:
the accumulator `none` stands for the initial state `closest_ems = None`,
`min_distance = float("inf")`; a station is taken iff its distance is
strictly below the current minimum (any finite distance beats infinity). -/
def find_closest_ems_loop (dist : Rat × Rat → Rat × Rat → Rat) (train : Rat × Rat) :
    List EmsRow → Option (String × Rat × Rat × Rat) → Option (String × Rat × Rat × Rat)
  | [], acc => acc
  | e :: rest, acc =>
    let d := dist train (e.latitude, e.longitude)
    let takeIt : Bool :=
      match acc with
      | none => true
      | some (_, _, _, dm) => decide (d < dm)
    find_closest_ems_loop dist train rest
      (if takeIt then some (emsEntry dist train e) else acc)

/-- Embeds `find_closest_ems(train_lat, train_lon)`: `none` is the
`(None, None, None, inf)` result produced when no station was ever taken. -/
def find_closest_ems (dist : Rat × Rat → Rat × Rat → Rat) (ems_stations : List EmsRow)
    (train_lat train_lon : Rat) : Option (String × Rat × Rat × Rat) :=
  find_closest_ems_loop dist (train_lat, train_lon) ems_stations none

/-- The labels dropped by `train_stations.drop(columns=[...])`. -/
def requiredDropCols : List String :=
  ["type", "stationUICCode", "countryCode", "passengerTraffic"]

/-- The column renaming applied by `train_stations.rename(columns={...})`. -/
def renameCol (c : String) : String :=
  if c = "stationName" then "train_station_name"
  else if c = "stationShortCode" then "train_station_short_code"
  else if c = "longitude" then "train_long"
  else if c = "latitude" then "train_lat"
  else c

/-- Removes the given columns from one row. -/
def rowDrop (cols : List String) (r : Row) : Row :=
  r.filter (fun kv => !(cols.contains kv.1))

/-- Embeds `DataFrame.drop(columns=cols)`: pandas raises `KeyError`
listing the missing labels when any requested column is absent. -/
def dropColumnsDF (df : DF) (cols : List String) : Except CrossErr DF :=
  if (cols.filter (fun c => !(df.columns.contains c))).isEmpty then
    .ok ⟨df.columns.filter (fun c => !(cols.contains c)), df.rows.map (rowDrop cols)⟩
  else
    .error (.keyError (cols.filter (fun c => !(df.columns.contains c))))

/-- Applies the column renaming to one row. -/
def renameRow (r : Row) : Row := r.map (fun kv => (renameCol kv.1, kv.2))

/-- Embeds `DataFrame.rename(columns={...})`. -/
def renameDF (df : DF) : DF := ⟨df.columns.map renameCol, df.rows.map renameRow⟩

/-- Cell lookup `row[c]` (first matching column). -/
def rowGet (r : Row) (c : String) : Option Val :=
  (r.find? (fun kv => kv.1 == c)).map (fun kv => kv.2)

/-- Cell lookup that must produce a number (a coordinate). -/
def rowGetNum (r : Row) (c : String) : Except CrossErr Rat :=
  match rowGet r c with
  | some (Val.num q) => .ok q
  | some _ => .error (.typeError c)
  | none => .error (.keyError [c])

/-- The four cells appended to a train-station row by the matcher; with no
weather station ever taken they are `None, None, None, inf`. -/
def emsResultCols (res : Option (String × Rat × Rat × Rat)) : Row :=
  match res with
  | none =>
    [("closest_ems_station", Val.null), ("ems_latitude", Val.null),
     ("ems_longitude", Val.null), ("distance_km", Val.inf)]
  | some (n, la, lo, d) =>
    [("closest_ems_station", Val.str n), ("ems_latitude", Val.num la),
     ("ems_longitude", Val.num lo), ("distance_km", Val.num d)]

/-- One step of the `train_stations.apply(..., axis=1)` call: read the
coordinates and append the closest-EMS cells. -/
def matchRow (dist : Rat × Rat → Rat × Rat → Rat) (ems_stations : List EmsRow)
    (r : Row) : Except CrossErr Row :=
  match rowGetNum r "train_lat", rowGetNum r "train_long" with
  | .ok la, .ok lo => .ok (r ++ emsResultCols (find_closest_ems dist ems_stations la lo))
  | .error e, _ => .error e
  | _, .error e => .error e

/-- Embeds `match_train_with_ems`: drop the four fixed columns (KeyError
when absent), rename, then compute the closest EMS station per row. -/
def match_train_with_ems (dist : Rat × Rat → Rat × Rat → Rat) (train_stations : DF)
    (ems_stations : List EmsRow) : Except CrossErr DF :=
  match dropColumnsDF train_stations requiredDropCols with
  | .error e => .error e
  | .ok dropped =>
    match mapE (matchRow dist ems_stations) (renameDF dropped).rows with
    | .error e => .error e
    | .ok rows =>
      .ok ⟨(renameDF dropped).columns ++
             ["closest_ems_station", "ems_latitude", "ems_longitude", "distance_km"],
           rows⟩

/-- A timestamp cell of `fmi_data`: a raw string before
`pd.to_datetime`, a parsed instant, or `NaT` (a coerced parse failure). -/
inductive TsVal where
  | raw (s : String)
  | dt (t : Int)
  | NaT
deriving DecidableEq

/-- Embeds `pd.to_datetime(x, errors="coerce")` on one cell: raw strings
are parsed (unparseable becomes `NaT`); parsed instants and `NaT` are
returned unchanged. -/
def toDatetime (P : String → Option Int) : TsVal → TsVal
  | .raw s =>
    match P s with
    | some t => .dt t
    | none => .NaT
  | .dt t => .dt t
  | .NaT => .NaT

/-- One row of `fmi_data`: station name, timestamp cell, and the
measurement columns. -/
structure WeatherRow where
  station_name : String
  timestamp : TsVal
  data : List (String × Val)
deriving DecidableEq

/-- Embeds the in-place conversion
`fmi_data["timestamp"] = pd.to_datetime(fmi_data["timestamp"], errors="coerce")`. -/
def convertFmi (P : String → Option Int) (fmi : List WeatherRow) : List WeatherRow :=
  fmi.map (fun r => { r with timestamp := toDatetime P r.timestamp })

/-- Tests for a successfully parsed timestamp (the complement of the rows
removed by `dropna(subset=["timestamp"])`). -/
def isDt : TsVal → Bool
  | .dt _ => true
  | _ => false

/-- The instant of a parsed timestamp cell. -/
def tsKey : TsVal → Int
  | .dt t => t
  | _ => 0

/-- Inserts a row into a timestamp-sorted list, before the first row with
a strictly larger or equal key is passed (stable insertion). -/
def insertByTs (r : WeatherRow) : List WeatherRow → List WeatherRow
  | [] => [r]
  | x :: xs =>
    if tsKey r.timestamp ≤ tsKey x.timestamp then r :: x :: xs
    else x :: insertByTs r xs

/-- Stable sort by timestamp, modelling `sort_values(by="timestamp")`. -/
def sortByTs : List WeatherRow → List WeatherRow
  | [] => []
  | x :: xs => insertByTs x (sortByTs xs)

/-- The per-station observation rows actually searched by
`find_closest_weather`: the station's group from `ems_weather_dict`
(`fmi_data.groupby("station_name")`, `sort_values(by="timestamp")`) after
`dropna(subset=["timestamp"])`. -/
def stationObsRows (fmi : List WeatherRow) (st : String) : List WeatherRow :=
  sortByTs ((fmi.filter (fun r => r.station_name == st)).filter
      (fun r => isDt r.timestamp))

/-- Embeds `np.searchsorted(ts, t)` (left insertion point) on a sorted
timestamp array: the length of the prefix of elements strictly below `t`. -/
def searchsortedLeft (ts : List Int) (t : Int) : Nat :=
  (ts.takeWhile (fun x => decide (x < t))).length

/-- Embeds the index selection of `find_closest_weather`: clamp at the
boundaries, otherwise compare the neighbours before and at the insertion
point, keeping the later one only when it is strictly closer
(`closest_idx = idx if after < before else idx - 1`). -/
def closestIdx (ts : List Int) (t : Int) : Nat :=
  let idx := searchsortedLeft ts t
  if idx = 0 then 0
  else if ts.length ≤ idx then ts.length - 1
  else
    let before := (ts.getD (idx - 1) 0 - t).natAbs
    let after := (ts.getD idx 0 - t).natAbs
    if after < before then idx else idx - 1

/-- Errors raised inside the merge loop: `ValueError` from
`datetime.strptime` on a scheduled time, and `IndexError` from
`iloc[0]` when a station's rows all have unparseable timestamps. -/
inductive JoinErr where
  | formatError (s : String)
  | indexError
deriving DecidableEq

/-- Embeds `find_closest_weather(ems_station, scheduled_time)`: parse the
scheduled time with `strptime` (raising on failure), return the empty
mapping when the station has no group in `ems_weather_dict`, otherwise
select the row at `closestIdx` and return its mapping rebuilt as
`closest_ems` followed by the measurement columns. -/
def find_closest_weather (P : String → Option Int) (fmi : List WeatherRow)
    (ems_station : String) (scheduled_time : String) :
    Except JoinErr (List (String × Val)) :=
  match P scheduled_time with
  | none => .error (.formatError scheduled_time)
  | some t =>
    if (fmi.filter (fun r => r.station_name == ems_station)).isEmpty then
      .ok []
    else
      let rows := stationObsRows fmi ems_station
      let ts := rows.map (fun r => tsKey r.timestamp)
      match rows.get? (closestIdx ts t) with
      | none => .error .indexError
      | some row => .ok (("closest_ems", Val.str row.station_name) :: row.data)

/-- A timetable stop: the two fields read by the joiner (`.get` may yield
`None`), the `weather_observations` field it may write (`none` = the key
is absent from the stop dictionary), and the opaque pass-through fields. -/
structure Stop where
  stationShortCode : Option String
  scheduledTime : Option String
  weather_observations : Option (List (String × Val))
  other : List (String × Val)
deriving DecidableEq

/-- A train run: identifier, service date, and its ordered stops. -/
structure TrainRun where
  trainNumber : Int
  departureDate : String
  timeTableRows : List Stop
deriving DecidableEq

/-- A row of `matched_stations_df` restricted to the two columns the
joiner reads. -/
structure MatchedRow where
  train_station_short_code : String
  closest_ems_station : String
deriving DecidableEq

/-- Default matched row used with `List.getD`. -/
def matchedDefault : MatchedRow := ⟨"", ""⟩

/-- Embeds the body of the inner stop loop of `merge_train_weather_data`:
skip unless both fields are truthy, look up the first matching row of
`matched_stations_df` (`.loc[...]` then `.iloc[0]`), skip when the
selection is empty, otherwise attach the closest weather mapping. -/
def processStop (P : String → Option Int) (fmi : List WeatherRow)
    (matched : List MatchedRow) (stop : Stop) : Except JoinErr Stop :=
  match stop.stationShortCode, stop.scheduledTime with
  | some code, some sched =>
    if code = "" ∨ sched = "" then .ok stop
    else
      match matched.find? (fun r => r.train_station_short_code == code) with
      | none => .ok stop
      | some row =>
        match find_closest_weather P fmi row.closest_ems_station sched with
        | .error e => .error e
        | .ok w => .ok { stop with weather_observations := some w }
  | _, _ => .ok stop

/-- Processes every stop of one train run in order. -/
def processTrain (P : String → Option Int) (fmi : List WeatherRow)
    (matched : List MatchedRow) (tr : TrainRun) : Except JoinErr TrainRun :=
  match mapE (processStop P fmi matched) tr.timeTableRows with
  | .error e => .error e
  | .ok rows => .ok { tr with timeTableRows := rows }

/-- Embeds `merge_train_weather_data`: convert the observation timestamps
in place, then walk every train and stop; the converted observation table
is returned next to the trains to make the in-place mutation of
`fmi_data` observable. -/
def merge_train_weather_data (P : String → Option Int) (trains_data : List TrainRun)
    (fmi_data : List WeatherRow) (matched_stations : List MatchedRow) :
    Except JoinErr (List TrainRun × List WeatherRow) :=
  match mapE (processTrain P (convertFmi P fmi_data) matched_stations) trains_data with
  | .error e => .error e
  | .ok ts => .ok (ts, convertFmi P fmi_data)

/-- Frame relation on stops: the output stop agrees with the input stop on
every field other than `weather_observations`. -/
def stopFrame (a b : Stop) : Prop :=
  b.stationShortCode = a.stationShortCode ∧ b.scheduledTime = a.scheduledTime ∧
  b.other = a.other

/-- Frame relation on train runs: identifier and date agree and the stops
correspond pairwise under `stopFrame`. -/
def trainFrame (a b : TrainRun) : Prop :=
  b.trainNumber = a.trainNumber ∧ b.departureDate = a.departureDate ∧
  List.Forall₂ stopFrame a.timeTableRows b.timeTableRows

/-- The coordinate pair of a weather station record. -/
def emsCoords (e : EmsRow) : Rat × Rat := (e.latitude, e.longitude)

/-! ### Concrete instances used by the evaluation theorems -/

/-- A concrete stand-in for the haversine call, reading distances off the
station latitude (kernel-evaluable, unlike rational trigonometry). -/
def distW : Rat × Rat → Rat × Rat → Rat := fun _ q =>
  if q.1 = 60 then 3 else if q.1 = 61 then 1 else if q.1 = 62 then 1 else 7

/-- Three concrete weather stations; under `distW` the minimum distance 1
is attained first by the second station. -/
def emsW : List EmsRow := [⟨"W1", 60, 24⟩, ⟨"W2", 61, 25⟩, ⟨"W3", 62, 26⟩]

/-- A concrete railway-station table with the four droppable columns. -/
def trainDFW : DF :=
  ⟨["stationName", "stationShortCode", "type", "stationUICCode", "countryCode",
    "passengerTraffic", "latitude", "longitude"],
   [[("stationName", Val.str "Helsinki"), ("stationShortCode", Val.str "HKI"),
     ("type", Val.str "STATION"), ("stationUICCode", Val.num 1),
     ("countryCode", Val.str "FI"), ("passengerTraffic", Val.str "true"),
     ("latitude", Val.num 60), ("longitude", Val.num 24)]]⟩

/-- The same table with the `type` column missing. -/
def trainDFMissing : DF :=
  ⟨["stationName", "stationShortCode", "stationUICCode", "countryCode",
    "passengerTraffic", "latitude", "longitude"],
   [[("stationName", Val.str "Helsinki"), ("stationShortCode", Val.str "HKI"),
     ("stationUICCode", Val.num 1), ("countryCode", Val.str "FI"),
     ("passengerTraffic", Val.str "true"),
     ("latitude", Val.num 60), ("longitude", Val.num 24)]]⟩

/-- A concrete timestamp parser: two scheduled-time strings and one
observation string parse; everything else fails. -/
def parseW : String → Option Int := fun s =>
  if s = "2024-01-01T10:30:00.000000Z" then some 630
  else if s = "2024-01-01T10:29:00.000000Z" then some 629
  else if s = "obs-10:00" then some 600
  else if s = "obs-11:00" then some 660 else none

/-- A concrete observation table: one station, one raw-string timestamp. -/
def fmiW : List WeatherRow := [⟨"Kaisaniemi", .raw "obs-10:00", [("temp", Val.num 5)]⟩]

/-- A concrete match table; a second, duplicated code exercises the
first-row rule. -/
def matchedW : List MatchedRow := [⟨"HKI", "Kaisaniemi"⟩, ⟨"HKI", "Harmaja"⟩]

/-- A stop whose code and scheduled time are both present and parseable. -/
def stopGoodW : Stop :=
  ⟨some "HKI", some "2024-01-01T10:30:00.000000Z", none, [("trainStopping", Val.str "true")]⟩

/-- A stop whose scheduled time fails to parse. -/
def stopBadTimeW : Stop := ⟨some "HKI", some "not-a-timestamp", none, []⟩

/-- A stop whose station code has no row in the match table. -/
def stopNoMatchW : Stop := ⟨some "XXX", some "2024-01-01T10:30:00.000000Z", none, []⟩

/-- A stop with an empty station code. -/
def stopEmptyCodeW : Stop := ⟨some "", some "2024-01-01T10:30:00.000000Z", none, []⟩

/-- Default observation row used with `List.getD`. -/
def wDefault : WeatherRow := ⟨"", .NaT, []⟩

/-- A converted observation table with three observations at 10:00,
11:00, 12:00 (in minutes) for one station: the spec's own tie scenario. -/
def fmiSortedW : List WeatherRow :=
  [⟨"Kaisaniemi", .dt 600, [("temp", Val.num 5)]⟩,
   ⟨"Kaisaniemi", .dt 660, [("temp", Val.num 7)]⟩,
   ⟨"Kaisaniemi", .dt 720, [("temp", Val.num 9)]⟩]

/-- The searched per-station rows of the tie scenario. -/
def rowsTieW : List WeatherRow := stationObsRows fmiSortedW "Kaisaniemi"

/-- The timestamp index of the tie scenario. -/
def tsTieW : List Int := rowsTieW.map (fun r => tsKey r.timestamp)

/-- The observation table after the joiner's in-place timestamp
conversion: the raw string has become a parsed instant. -/
def fmiWConverted : List WeatherRow := [⟨"Kaisaniemi", .dt 600, [("temp", Val.num 5)]⟩]

/-- The good stop after the joiner has attached its observation mapping. -/
def stopGoodWOut : Stop :=
  ⟨some "HKI", some "2024-01-01T10:30:00.000000Z",
   some [("closest_ems", Val.str "Kaisaniemi"), ("temp", Val.num 5)],
   [("trainStopping", Val.str "true")]⟩

/-- The output the matcher produces from `trainDFW` when the
weather-station registry is empty. -/
def matchedEmptyOutW : DF :=
  ⟨["train_station_name", "train_station_short_code", "train_lat", "train_long",
    "closest_ems_station", "ems_latitude", "ems_longitude", "distance_km"],
   [[("train_station_name", Val.str "Helsinki"),
     ("train_station_short_code", Val.str "HKI"),
     ("train_lat", Val.num 60), ("train_long", Val.num 24),
     ("closest_ems_station", Val.null), ("ems_latitude", Val.null),
     ("ems_longitude", Val.null), ("distance_km", Val.inf)]]⟩

/-! ### Helper lemmas about the insertion-point search -/

theorem searchsortedLeft_nil (t : Int) : searchsortedLeft [] t = 0 := rfl

theorem searchsortedLeft_cons (a : Int) (l : List Int) (t : Int) :
    searchsortedLeft (a :: l) t = if a < t then searchsortedLeft l t + 1 else 0 := by
  by_cases h : a < t <;> simp [searchsortedLeft, List.takeWhile_cons, h]

theorem searchsortedLeft_le_length (ts : List Int) (t : Int) :
    searchsortedLeft ts t ≤ ts.length := by
  induction ts with
  | nil => simp [searchsortedLeft_nil]
  | cons a l ih =>
    rw [searchsortedLeft_cons]
    by_cases h : a < t
    · simp only [h, if_true, List.length_cons]
      omega
    · simp [h]

theorem getD_mem_of_lt (l : List α) (j : Nat) (d : α) (h : j < l.length) :
    l.getD j d ∈ l := by
  induction l generalizing j with
  | nil => simp at h
  | cons a l ih =>
    cases j with
    | zero => simp
    | succ j =>
      rw [List.getD_cons_succ]
      exact List.mem_cons_of_mem _ (ih j (by simpa using h))

theorem getD_lt_of_lt_searchsortedLeft (ts : List Int) (t : Int) (j : Nat)
    (hj : j < searchsortedLeft ts t) : ts.getD j 0 < t := by
  induction ts generalizing j with
  | nil => simp [searchsortedLeft_nil] at hj
  | cons a l ih =>
    rw [searchsortedLeft_cons] at hj
    by_cases h : a < t
    · simp only [h, if_true] at hj
      cases j with
      | zero => simpa using h
      | succ j =>
        rw [List.getD_cons_succ]
        exact ih j (by omega)
    · simp [h] at hj

theorem le_getD_of_searchsortedLeft_le (ts : List Int) (t : Int) (j : Nat)
    (hs : List.Sorted (· ≤ ·) ts) (hij : searchsortedLeft ts t ≤ j)
    (hj : j < ts.length) : t ≤ ts.getD j 0 := by
  induction ts generalizing j with
  | nil => simp at hj
  | cons a l ih =>
    rw [List.sorted_cons] at hs
    rw [searchsortedLeft_cons] at hij
    by_cases h : a < t
    · simp only [h, if_true] at hij
      cases j with
      | zero => omega
      | succ j =>
        rw [List.getD_cons_succ]
        exact ih j hs.2 (by omega) (by simpa using hj)
    · push_neg at h
      cases j with
      | zero => simpa using h
      | succ j =>
        rw [List.getD_cons_succ]
        have hmem : l.getD j 0 ∈ l := getD_mem_of_lt _ _ _ (by simpa using hj)
        exact le_trans h (hs.1 _ hmem)

theorem sorted_getD_le (ts : List Int) (hs : List.Sorted (· ≤ ·) ts) (i j : Nat)
    (hij : i ≤ j) (hj : j < ts.length) : ts.getD i 0 ≤ ts.getD j 0 := by
  induction ts generalizing i j with
  | nil => simp at hj
  | cons a l ih =>
    rw [List.sorted_cons] at hs
    cases i with
    | zero =>
      cases j with
      | zero => simp
      | succ j =>
        rw [List.getD_cons_zero, List.getD_cons_succ]
        have hmem : l.getD j 0 ∈ l := getD_mem_of_lt _ _ _ (by simpa using hj)
        exact hs.1 _ hmem
    | succ i =>
      cases j with
      | zero => omega
      | succ j =>
        rw [List.getD_cons_succ, List.getD_cons_succ]
        exact ih hs.2 i j (by omega) (by simpa using hj)

theorem closestIdx_eq (ts : List Int) (t : Int) :
    closestIdx ts t =
      if searchsortedLeft ts t = 0 then 0
      else if ts.length ≤ searchsortedLeft ts t then ts.length - 1
      else if (ts.getD (searchsortedLeft ts t) 0 - t).natAbs
              < (ts.getD (searchsortedLeft ts t - 1) 0 - t).natAbs
        then searchsortedLeft ts t else searchsortedLeft ts t - 1 := rfl

/-- The joiner's index selection on a sorted timestamp array: the chosen
index is valid, minimizes the absolute difference to the scheduled time,
clamps at the boundaries, and prefers the earlier neighbour on a tie. -/
theorem closestIdx_spec (ts : List Int) (t : Int)
    (hs : List.Sorted (· ≤ ·) ts) (hne : ts ≠ []) :
    closestIdx ts t < ts.length ∧
    (∀ j, j < ts.length →
      (ts.getD (closestIdx ts t) 0 - t).natAbs ≤ (ts.getD j 0 - t).natAbs) ∧
    (searchsortedLeft ts t = 0 → closestIdx ts t = 0) ∧
    (searchsortedLeft ts t = ts.length → closestIdx ts t = ts.length - 1) ∧
    (0 < searchsortedLeft ts t → searchsortedLeft ts t < ts.length →
      (ts.getD (searchsortedLeft ts t) 0 - t).natAbs
        = (ts.getD (searchsortedLeft ts t - 1) 0 - t).natAbs →
      closestIdx ts t = searchsortedLeft ts t - 1) := by
  have hlen : 0 < ts.length := List.length_pos.mpr hne
  have hle : searchsortedLeft ts t ≤ ts.length := searchsortedLeft_le_length ts t
  by_cases h0 : searchsortedLeft ts t = 0
  · have hc : closestIdx ts t = 0 := by rw [closestIdx_eq, if_pos h0]
    rw [hc]
    refine ⟨hlen, ?_, fun _ => rfl, fun h => by omega, fun hp _ _ => by omega⟩
    intro j hj
    have h1 : t ≤ ts.getD 0 0 :=
      le_getD_of_searchsortedLeft_le ts t 0 hs (by omega) hlen
    have h2 : t ≤ ts.getD j 0 :=
      le_getD_of_searchsortedLeft_le ts t j hs (by omega) hj
    have h3 : ts.getD 0 0 ≤ ts.getD j 0 := sorted_getD_le ts hs 0 j (by omega) hj
    omega
  · by_cases hL : ts.length ≤ searchsortedLeft ts t
    · have hc : closestIdx ts t = ts.length - 1 := by
        rw [closestIdx_eq, if_neg h0, if_pos hL]
      rw [hc]
      refine ⟨by omega, ?_, fun h => absurd h h0, fun _ => rfl, fun _ hp _ => by omega⟩
      intro j hj
      have h1 : ts.getD j 0 < t :=
        getD_lt_of_lt_searchsortedLeft ts t j (by omega)
      have h2 : ts.getD (ts.length - 1) 0 < t :=
        getD_lt_of_lt_searchsortedLeft ts t (ts.length - 1) (by omega)
      have h3 : ts.getD j 0 ≤ ts.getD (ts.length - 1) 0 :=
        sorted_getD_le ts hs j (ts.length - 1) (by omega) (by omega)
      omega
    · have hbefore : ts.getD (searchsortedLeft ts t - 1) 0 < t :=
        getD_lt_of_lt_searchsortedLeft ts t _ (by omega)
      have hafter : t ≤ ts.getD (searchsortedLeft ts t) 0 :=
        le_getD_of_searchsortedLeft_le ts t _ hs (by omega) (by omega)
      by_cases hcmp : (ts.getD (searchsortedLeft ts t) 0 - t).natAbs
          < (ts.getD (searchsortedLeft ts t - 1) 0 - t).natAbs
      · have hc : closestIdx ts t = searchsortedLeft ts t := by
          rw [closestIdx_eq, if_neg h0, if_neg hL, if_pos hcmp]
        rw [hc]
        refine ⟨by omega, ?_, fun h => absurd h h0, fun h => by omega,
          fun _ _ h => by omega⟩
        intro j hj
        by_cases hjc : j < searchsortedLeft ts t
        · have h1 : ts.getD j 0 ≤ ts.getD (searchsortedLeft ts t - 1) 0 :=
            sorted_getD_le ts hs j _ (by omega) (by omega)
          have h2 : ts.getD j 0 < t := getD_lt_of_lt_searchsortedLeft ts t j hjc
          omega
        · have h1 : ts.getD (searchsortedLeft ts t) 0 ≤ ts.getD j 0 :=
            sorted_getD_le ts hs _ j (by omega) hj
          have h2 : t ≤ ts.getD j 0 :=
            le_getD_of_searchsortedLeft_le ts t j hs (by omega) hj
          omega
      · have hc : closestIdx ts t = searchsortedLeft ts t - 1 := by
          rw [closestIdx_eq, if_neg h0, if_neg hL, if_neg hcmp]
        rw [hc]
        refine ⟨by omega, ?_, fun h => absurd h h0, fun h => by omega,
          fun _ _ _ => rfl⟩
        intro j hj
        by_cases hjc : j < searchsortedLeft ts t
        · have h1 : ts.getD j 0 ≤ ts.getD (searchsortedLeft ts t - 1) 0 :=
            sorted_getD_le ts hs j _ (by omega) (by omega)
          have h2 : ts.getD j 0 < t := getD_lt_of_lt_searchsortedLeft ts t j hjc
          omega
        · have h1 : ts.getD (searchsortedLeft ts t) 0 ≤ ts.getD j 0 :=
            sorted_getD_le ts hs _ j (by omega) hj
          have h2 : t ≤ ts.getD j 0 :=
            le_getD_of_searchsortedLeft_le ts t j hs (by omega) hj
          omega


/-! ### The per-station sort and the nearest-observation selection -/

theorem mem_insertByTs (y r : WeatherRow) :
    ∀ l, y ∈ insertByTs r l ↔ y = r ∨ y ∈ l := by
  intro l
  induction l with
  | nil => simp [insertByTs]
  | cons x xs ih =>
    unfold insertByTs
    by_cases h : tsKey r.timestamp ≤ tsKey x.timestamp
    · rw [if_pos h]
      simp only [List.mem_cons]
    · rw [if_neg h]
      simp only [List.mem_cons, ih]
      tauto

theorem insertByTs_sorted (r : WeatherRow) :
    ∀ l, List.Sorted (fun a b => tsKey a.timestamp ≤ tsKey b.timestamp) l →
      List.Sorted (fun a b => tsKey a.timestamp ≤ tsKey b.timestamp)
        (insertByTs r l) := by
  intro l
  induction l with
  | nil =>
    intro _
    simp [insertByTs]
  | cons x xs ih =>
    intro hl
    rw [List.sorted_cons] at hl
    unfold insertByTs
    by_cases h : tsKey r.timestamp ≤ tsKey x.timestamp
    · rw [if_pos h, List.sorted_cons]
      refine ⟨?_, by rw [List.sorted_cons]; exact hl⟩
      intro b hb
      rcases List.mem_cons.mp hb with rfl | hb
      · exact h
      · exact le_trans h (hl.1 b hb)
    · rw [if_neg h, List.sorted_cons]
      refine ⟨?_, ih hl.2⟩
      intro b hb
      rcases (mem_insertByTs b r xs).mp hb with rfl | hb
      · exact le_of_lt (not_le.mp h)
      · exact hl.1 b hb

theorem sortByTs_sorted :
    ∀ l, List.Sorted (fun a b => tsKey a.timestamp ≤ tsKey b.timestamp)
      (sortByTs l) := by
  intro l
  induction l with
  | nil => simp [sortByTs]
  | cons x xs ih => exact insertByTs_sorted x _ ih

theorem sorted_keys_of_sortByTs (l : List WeatherRow) :
    List.Sorted (· ≤ ·) ((sortByTs l).map (fun r => tsKey r.timestamp)) :=
  List.pairwise_map.mpr (sortByTs_sorted l)

theorem getD_map_tsKey :
    ∀ (l : List WeatherRow) (i : Nat), i < l.length →
      (l.map (fun r => tsKey r.timestamp)).getD i 0 =
        tsKey ((l.getD i wDefault).timestamp) := by
  intro l
  induction l with
  | nil =>
    intro i hi
    simp at hi
  | cons x xs ih =>
    intro i hi
    cases i with
    | zero => rfl
    | succ i => simpa [List.getD_cons_succ] using ih i (by simpa using hi)

theorem getQ_eq_getD_of_lt :
    ∀ (l : List WeatherRow) (i : Nat), i < l.length →
      l.get? i = some (l.getD i wDefault) := by
  intro l
  induction l with
  | nil =>
    intro i hi
    simp at hi
  | cons x xs ih =>
    intro i hi
    cases i with
    | zero => rfl
    | succ i => simpa using ih i (by simpa using hi)

theorem stationFilter_not_empty (fmi : List WeatherRow) (st : String)
    (h : stationObsRows fmi st ≠ []) :
    (fmi.filter (fun r => r.station_name == st)).isEmpty = false := by
  unfold stationObsRows at h
  have h1 : (fmi.filter (fun r => r.station_name == st)).filter
      (fun r => isDt r.timestamp) ≠ [] := by
    intro he
    rw [he] at h
    exact h rfl
  have h2 : fmi.filter (fun r => r.station_name == st) ≠ [] := by
    intro he
    rw [he] at h1
    exact h1 rfl
  simpa [List.isEmpty_iff] using h2

/-- C1: for every stop whose matched weather station has a non-empty
(post-conversion) observation sequence, `find_closest_weather` returns
the observation at the selected index, whose timestamp minimizes the
absolute difference to the parsed scheduled time; when the insertion
point is 0 or the sequence length the index clamps to the single boundary
element; and when the neighbours before and at the insertion point are
exactly equidistant the earlier (before) observation's index is selected. -/
theorem temporal_join_selects_nearest (P : String → Option Int)
    (fmi : List WeatherRow) (st sched : String) (t : Int)
    (rows : List WeatherRow) (ts : List Int)
    (hP : P sched = some t)
    (hrows : rows = stationObsRows fmi st)
    (hts : ts = rows.map (fun r => tsKey r.timestamp))
    (hne : rows ≠ []) :
    ∃ row, rows.get? (closestIdx ts t) = some row ∧
      find_closest_weather P fmi st sched =
        .ok (("closest_ems", Val.str row.station_name) :: row.data) ∧
      (∀ j, j < ts.length →
        (tsKey row.timestamp - t).natAbs ≤ (ts.getD j 0 - t).natAbs) ∧
      (searchsortedLeft ts t = 0 → closestIdx ts t = 0) ∧
      (searchsortedLeft ts t = ts.length → closestIdx ts t = ts.length - 1) ∧
      (0 < searchsortedLeft ts t → searchsortedLeft ts t < ts.length →
        (ts.getD (searchsortedLeft ts t) 0 - t).natAbs
          = (ts.getD (searchsortedLeft ts t - 1) 0 - t).natAbs →
        closestIdx ts t = searchsortedLeft ts t - 1) := by
  subst hts
  have hsorted : List.Sorted (· ≤ ·) (rows.map (fun r => tsKey r.timestamp)) := by
    rw [hrows]
    unfold stationObsRows
    exact sorted_keys_of_sortByTs _
  have htsne : rows.map (fun r => tsKey r.timestamp) ≠ [] := by
    intro he
    exact hne (List.map_eq_nil_iff.mp he)
  obtain ⟨hclt, hmin, hb0, hbl, htie⟩ :=
    closestIdx_spec (rows.map (fun r => tsKey r.timestamp)) t hsorted htsne
  have hlen : (rows.map (fun r => tsKey r.timestamp)).length = rows.length :=
    List.length_map _ _
  have hget : rows.get? (closestIdx (rows.map (fun r => tsKey r.timestamp)) t) =
      some (rows.getD (closestIdx (rows.map (fun r => tsKey r.timestamp)) t) wDefault) :=
    getQ_eq_getD_of_lt rows _ (by omega)
  refine ⟨rows.getD (closestIdx (rows.map (fun r => tsKey r.timestamp)) t) wDefault,
    hget, ?_, ?_, hb0, hbl, htie⟩
  · have hfe := stationFilter_not_empty fmi st (hrows ▸ hne)
    unfold find_closest_weather
    rw [hP]
    dsimp only
    rw [if_neg (by simp [hfe]), ← hrows, hget]
  · intro j hj
    have hkey : (rows.map (fun r => tsKey r.timestamp)).getD
        (closestIdx (rows.map (fun r => tsKey r.timestamp)) t) 0 =
        tsKey ((rows.getD (closestIdx (rows.map (fun r => tsKey r.timestamp)) t)
          wDefault).timestamp) :=
      getD_map_tsKey rows _ (by omega)
    rw [← hkey]
    exact hmin j hj

/-- Witness for C1 at the spec's own scenario: observations at 10:00,
11:00, 12:00 and a stop scheduled at the exact tie 10:30; the selected
index is 0, the earlier observation. -/
theorem temporal_join_selects_nearest_witness :
    (parseW "2024-01-01T10:30:00.000000Z" = some 630 ∧
      rowsTieW = stationObsRows fmiSortedW "Kaisaniemi" ∧
      rowsTieW ≠ [] ∧ closestIdx tsTieW 630 = 0) ∧
    (∃ row, rowsTieW.get? (closestIdx tsTieW 630) = some row ∧
      find_closest_weather parseW fmiSortedW "Kaisaniemi"
          "2024-01-01T10:30:00.000000Z" =
        .ok (("closest_ems", Val.str row.station_name) :: row.data) ∧
      (∀ j, j < tsTieW.length →
        (tsKey row.timestamp - 630).natAbs ≤ (tsTieW.getD j 0 - 630).natAbs) ∧
      (searchsortedLeft tsTieW 630 = 0 → closestIdx tsTieW 630 = 0) ∧
      (searchsortedLeft tsTieW 630 = tsTieW.length →
        closestIdx tsTieW 630 = tsTieW.length - 1) ∧
      (0 < searchsortedLeft tsTieW 630 → searchsortedLeft tsTieW 630 < tsTieW.length →
        (tsTieW.getD (searchsortedLeft tsTieW 630) 0 - 630).natAbs
          = (tsTieW.getD (searchsortedLeft tsTieW 630 - 1) 0 - 630).natAbs →
        closestIdx tsTieW 630 = searchsortedLeft tsTieW 630 - 1)) :=
  ⟨⟨rfl, rfl, by decide, by decide⟩,
    temporal_join_selects_nearest parseW fmiSortedW "Kaisaniemi"
      "2024-01-01T10:30:00.000000Z" 630 rowsTieW tsTieW rfl rfl rfl (by decide)⟩

/-! ### Helper lemmas about the closest-EMS loop -/

theorem find_closest_ems_loop_cons_none (dist : Rat × Rat → Rat × Rat → Rat)
    (train : Rat × Rat) (e : EmsRow) (rest : List EmsRow) :
    find_closest_ems_loop dist train (e :: rest) none =
      find_closest_ems_loop dist train rest (some (emsEntry dist train e)) := rfl

theorem find_closest_ems_loop_cons_some (dist : Rat × Rat → Rat × Rat → Rat)
    (train : Rat × Rat) (e : EmsRow) (rest : List EmsRow)
    (a : String × Rat × Rat × Rat) :
    find_closest_ems_loop dist train (e :: rest) (some a) =
      find_closest_ems_loop dist train rest
        (if dist train (e.latitude, e.longitude) < a.2.2.2
          then some (emsEntry dist train e) else some a) := by
  obtain ⟨n, la, lo, dm⟩ := a
  by_cases hd : dist train (e.latitude, e.longitude) < dm
  · simp [find_closest_ems_loop, hd]
  · simp [find_closest_ems_loop, hd]

theorem find_closest_ems_loop_spec (dist : Rat × Rat → Rat × Rat → Rat)
    (train : Rat × Rat) :
    ∀ (l : List EmsRow) (a : String × Rat × Rat × Rat),
      ∃ r, find_closest_ems_loop dist train l (some a) = some r ∧
        ((r = a ∧ ∀ j, j < l.length →
            a.2.2.2 ≤ dist train (emsCoords (l.getD j emsDefault))) ∨
         (∃ i, i < l.length ∧
            r = emsEntry dist train (l.getD i emsDefault) ∧
            r.2.2.2 < a.2.2.2 ∧
            (∀ j, j < i → r.2.2.2 < dist train (emsCoords (l.getD j emsDefault))) ∧
            (∀ j, j < l.length →
              r.2.2.2 ≤ dist train (emsCoords (l.getD j emsDefault))))) := by
  intro l
  induction l with
  | nil =>
    intro a
    exact ⟨a, rfl, Or.inl ⟨rfl, fun j hj => by simp at hj⟩⟩
  | cons e rest ih =>
    intro a
    rw [find_closest_ems_loop_cons_some]
    by_cases hd : dist train (e.latitude, e.longitude) < a.2.2.2
    · rw [if_pos hd]
      obtain ⟨r, hr, hcases⟩ := ih (emsEntry dist train e)
      refine ⟨r, hr, Or.inr ?_⟩
      rcases hcases with ⟨heq, hall⟩ | ⟨i, hi, hentry, hlt, hstrict, hall⟩
      · refine ⟨0, by simp, by simpa [List.getD_cons_zero] using heq, ?_, ?_, ?_⟩
        · rw [heq]; exact hd
        · intro j hj; omega
        · intro j hj
          cases j with
          | zero => rw [heq]; simp [List.getD_cons_zero, emsEntry, emsCoords]
          | succ j =>
            rw [List.getD_cons_succ]
            rw [heq]
            exact hall j (by simpa using hj)
      · refine ⟨i + 1, by simpa using hi, by simpa [List.getD_cons_succ] using hentry,
          lt_trans hlt hd, ?_, ?_⟩
        · intro j hj
          cases j with
          | zero =>
            rw [List.getD_cons_zero]
            exact hlt
          | succ j =>
            rw [List.getD_cons_succ]
            exact hstrict j (by omega)
        · intro j hj
          cases j with
          | zero =>
            rw [List.getD_cons_zero]
            exact le_of_lt hlt
          | succ j =>
            rw [List.getD_cons_succ]
            exact hall j (by simpa using hj)
    · rw [if_neg hd]
      obtain ⟨r, hr, hcases⟩ := ih a
      refine ⟨r, hr, ?_⟩
      rcases hcases with ⟨heq, hall⟩ | ⟨i, hi, hentry, hlt, hstrict, hall⟩
      · refine Or.inl ⟨heq, ?_⟩
        intro j hj
        cases j with
        | zero =>
          rw [List.getD_cons_zero]
          simpa [emsCoords] using not_lt.mp hd
        | succ j =>
          rw [List.getD_cons_succ]
          exact hall j (by simpa using hj)
      · refine Or.inr ⟨i + 1, by simpa using hi,
          by simpa [List.getD_cons_succ] using hentry, hlt, ?_, ?_⟩
        · intro j hj
          cases j with
          | zero =>
            rw [List.getD_cons_zero]
            exact lt_of_lt_of_le hlt (by simpa [emsCoords] using not_lt.mp hd)
          | succ j =>
            rw [List.getD_cons_succ]
            exact hstrict j (by omega)
        · intro j hj
          cases j with
          | zero =>
            rw [List.getD_cons_zero]
            exact le_of_lt (lt_of_lt_of_le hlt (by simpa [emsCoords] using not_lt.mp hd))
          | succ j =>
            rw [List.getD_cons_succ]
            exact hall j (by simpa using hj)

theorem mapE_ok_length (f : α → Except ε β) :
    ∀ (l : List α) (l' : List β), mapE f l = .ok l' → l'.length = l.length := by
  intro l
  induction l with
  | nil =>
    intro l' h
    cases h
    rfl
  | cons x xs ih =>
    intro l' h
    unfold mapE at h
    cases hfx : f x with
    | error e => rw [hfx] at h; exact Except.noConfusion h
    | ok y =>
      rw [hfx] at h
      cases hrest : mapE f xs with
      | error e => rw [hrest] at h; exact Except.noConfusion h
      | ok ys =>
        rw [hrest] at h
        cases h
        simp [ih ys hrest]

/-- C2: for a non-empty weather-station registry, `find_closest_ems`
returns the station minimizing the distance computed by the haversine
call (no other station is strictly closer), keeping the first station in
iteration order among equidistant minima; and `match_train_with_ems`
produces exactly one output row per railway-station row. -/
theorem station_matcher_minimizes (dist : Rat × Rat → Rat × Rat → Rat)
    (ems : List EmsRow) (la lo : Rat) (hne : ems ≠ []) :
    (∃ i, i < ems.length ∧
      find_closest_ems dist ems la lo =
        some (emsEntry dist (la, lo) (ems.getD i emsDefault)) ∧
      (∀ j, j < ems.length →
        dist (la, lo) (emsCoords (ems.getD i emsDefault)) ≤
          dist (la, lo) (emsCoords (ems.getD j emsDefault))) ∧
      (∀ j, j < i →
        dist (la, lo) (emsCoords (ems.getD i emsDefault)) <
          dist (la, lo) (emsCoords (ems.getD j emsDefault)))) ∧
    (∀ df out, match_train_with_ems dist df ems = .ok out →
      out.rows.length = df.rows.length) := by
  constructor
  · cases ems with
    | nil => exact absurd rfl hne
    | cons e rest =>
      obtain ⟨r, hr, hcases⟩ :=
        find_closest_ems_loop_spec dist (la, lo) rest (emsEntry dist (la, lo) e)
      have hx : find_closest_ems dist (e :: rest) la lo = some r := by
        rw [find_closest_ems, find_closest_ems_loop_cons_none, hr]
      rcases hcases with ⟨heq, hall⟩ | ⟨i, hi, hentry, hlt, hstrict, hall⟩
      · subst heq
        refine ⟨0, by simp, hx, ?_, fun j hj => by omega⟩
        intro j hj
        cases j with
        | zero => exact le_refl _
        | succ j => exact hall j (by simpa using hj)
      · subst hentry
        refine ⟨i + 1, by simpa using hi, hx, ?_, ?_⟩
        · intro j hj
          cases j with
          | zero => exact le_of_lt hlt
          | succ j => exact hall j (by simpa using hj)
        · intro j hj
          cases j with
          | zero => exact hlt
          | succ j => exact hstrict j (by omega)
  · intro df out h
    unfold match_train_with_ems at h
    split at h
    · exact Except.noConfusion h
    · rename_i dropped hdrop
      split at h
      · exact Except.noConfusion h
      · rename_i rows hmap
        cases h
        have h1 : rows.length = (renameDF dropped).rows.length :=
          mapE_ok_length _ _ _ hmap
        have h2 : (renameDF dropped).rows.length = dropped.rows.length := by
          simp [renameDF]
        have h3 : dropped.rows.length = df.rows.length := by
          unfold dropColumnsDF at hdrop
          split at hdrop
          · cases hdrop
            simp
          · exact Except.noConfusion hdrop
        simpa [h2, h3] using h1

/-- Witness for C2 at a concrete registry where the minimal distance is
attained by both the second and third station: the second (earlier) one
is returned. -/
theorem station_matcher_minimizes_witness :
    (emsW ≠ []) ∧
    (∃ i, i < emsW.length ∧
      find_closest_ems distW emsW 60 24 =
        some (emsEntry distW (60, 24) (emsW.getD i emsDefault)) ∧
      (∀ j, j < emsW.length →
        distW (60, 24) (emsCoords (emsW.getD i emsDefault)) ≤
          distW (60, 24) (emsCoords (emsW.getD j emsDefault))) ∧
      (∀ j, j < i →
        distW (60, 24) (emsCoords (emsW.getD i emsDefault)) <
          distW (60, 24) (emsCoords (emsW.getD j emsDefault)))) :=
  ⟨by decide, (station_matcher_minimizes distW emsW 60 24 (by decide)).1⟩

theorem mapE_ok_mem (f : α → Except ε β) :
    ∀ (l : List α) (l' : List β), mapE f l = .ok l' →
      ∀ y ∈ l', ∃ x ∈ l, f x = .ok y := by
  intro l
  induction l with
  | nil =>
    intro l' h
    cases h
    intro y hy
    exact absurd hy (List.not_mem_nil y)
  | cons x xs ih =>
    intro l' h
    unfold mapE at h
    cases hfx : f x with
    | error e => rw [hfx] at h; exact Except.noConfusion h
    | ok y =>
      rw [hfx] at h
      cases hrest : mapE f xs with
      | error e => rw [hrest] at h; exact Except.noConfusion h
      | ok ys =>
        rw [hrest] at h
        cases h
        intro z hz
        rcases List.mem_cons.mp hz with hz | hz
        · exact ⟨x, List.mem_cons_self x xs, hz ▸ hfx⟩
        · obtain ⟨w, hw, hfw⟩ := ih ys hrest z hz
          exact ⟨w, List.mem_cons_of_mem x hw, hfw⟩

/-- C8: when any of the columns `type`, `stationUICCode`, `countryCode`,
`passengerTraffic` is absent from the railway-station table, the matcher
raises a `KeyError` from the initial `drop` — for every distance function
and weather registry, so before any match is computed. -/
theorem matcher_requires_columns (dist : Rat × Rat → Rat × Rat → Rat)
    (df : DF) (ems : List EmsRow)
    (h : ∃ c ∈ requiredDropCols, ¬ df.columns.contains c) :
    match_train_with_ems dist df ems =
      .error (.keyError (requiredDropCols.filter
        (fun c => !(df.columns.contains c)))) := by
  have hne : requiredDropCols.filter (fun c => !(df.columns.contains c)) ≠ [] := by
    obtain ⟨c, hc, hnc⟩ := h
    intro hemp
    have hmem : c ∈ requiredDropCols.filter (fun c => !(df.columns.contains c)) :=
      List.mem_filter.mpr ⟨hc, by simpa using hnc⟩
    rw [hemp] at hmem
    exact absurd hmem (List.not_mem_nil c)
  have hdrop : dropColumnsDF df requiredDropCols =
      .error (.keyError (requiredDropCols.filter
        (fun c => !(df.columns.contains c)))) := by
    unfold dropColumnsDF
    rw [if_neg (by simpa [List.isEmpty_iff] using hne)]
  unfold match_train_with_ems
  rw [hdrop]

/-- Witness for C8: dropping the `type` column from the concrete table
makes the matcher fail with a KeyError naming it. -/
theorem matcher_requires_columns_witness :
    (∃ c ∈ requiredDropCols, ¬ trainDFMissing.columns.contains c) ∧
    match_train_with_ems distW trainDFMissing emsW =
      .error (.keyError (requiredDropCols.filter
        (fun c => !(trainDFMissing.columns.contains c)))) :=
  ⟨⟨"type", by decide, by decide⟩,
    matcher_requires_columns distW trainDFMissing emsW ⟨"type", by decide, by decide⟩⟩

/-- Counterexample to C3: with a non-empty railway table and an empty
weather registry, `match_train_with_ems` does not fail; it returns a
match row whose station fields are `None` and whose distance is
`float("inf")`. -/
theorem station_matcher_empty_no_error :
    match_train_with_ems distW trainDFW [] = .ok matchedEmptyOutW := by decide

/-- C3 amended: an empty weather-station registry is not signalled as an
error; every returned row carries null matched-station fields and an
infinite distance. -/
theorem station_matcher_empty_returns_null_inf (dist : Rat × Rat → Rat × Rat → Rat)
    (df : DF) (out : DF) (h : match_train_with_ems dist df [] = .ok out) :
    ∀ r ∈ out.rows, ∃ r₀, r = r₀ ++
      [("closest_ems_station", Val.null), ("ems_latitude", Val.null),
       ("ems_longitude", Val.null), ("distance_km", Val.inf)] := by
  unfold match_train_with_ems at h
  split at h
  · exact Except.noConfusion h
  · rename_i dropped hdrop
    split at h
    · exact Except.noConfusion h
    · rename_i rows hmap
      cases h
      intro r hr
      obtain ⟨x, _, hx⟩ := mapE_ok_mem _ _ _ hmap r hr
      unfold matchRow at hx
      split at hx
      · cases hx
        exact ⟨x, rfl⟩
      · exact Except.noConfusion hx
      · exact Except.noConfusion hx

/-- Witness for the amended C3 at the concrete empty-registry run. -/
theorem station_matcher_empty_returns_null_inf_witness :
    (match_train_with_ems distW trainDFW [] = .ok matchedEmptyOutW) ∧
    (∀ r ∈ matchedEmptyOutW.rows, ∃ r₀, r = r₀ ++
      [("closest_ems_station", Val.null), ("ems_latitude", Val.null),
       ("ems_longitude", Val.null), ("distance_km", Val.inf)]) :=
  ⟨by decide,
    station_matcher_empty_returns_null_inf distW trainDFW matchedEmptyOutW (by decide)⟩

/-! ### Helper lemmas for the merge loop -/

theorem mapE_error_of_mem (f : α → Except ε β) :
    ∀ (l : List α) (x : α), x ∈ l → ∀ e, f x = .error e →
      ∃ e', mapE f l = .error e' := by
  intro l
  induction l with
  | nil =>
    intro x hx
    exact absurd hx (List.not_mem_nil x)
  | cons a as ih =>
    intro x hx e hfx
    cases hfa : f a with
    | error e' =>
      refine ⟨e', ?_⟩
      unfold mapE
      rw [hfa]
    | ok y =>
      rcases List.mem_cons.mp hx with rfl | hx'
      · rw [hfa] at hfx
        exact Except.noConfusion hfx
      · obtain ⟨e', he'⟩ := ih x hx' e hfx
        refine ⟨e', ?_⟩
        unfold mapE
        rw [hfa, he']

theorem mapE_ok_forall₂ (f : α → Except ε β) (R : α → β → Prop)
    (hf : ∀ x y, f x = .ok y → R x y) :
    ∀ (l : List α) (l' : List β), mapE f l = .ok l' → List.Forall₂ R l l' := by
  intro l
  induction l with
  | nil =>
    intro l' h
    cases h
    exact List.Forall₂.nil
  | cons x xs ih =>
    intro l' h
    unfold mapE at h
    cases hfx : f x with
    | error e => rw [hfx] at h; exact Except.noConfusion h
    | ok y =>
      rw [hfx] at h
      cases hrest : mapE f xs with
      | error e => rw [hrest] at h; exact Except.noConfusion h
      | ok ys =>
        rw [hrest] at h
        cases h
        exact List.Forall₂.cons (hf x y hfx) (ih ys hrest)

theorem mapE_idem (f : α → Except ε α)
    (hf : ∀ x y, f x = .ok y → f y = .ok y) :
    ∀ (l l' : List α), mapE f l = .ok l' → mapE f l' = .ok l' := by
  intro l
  induction l with
  | nil =>
    intro l' h
    cases h
    rfl
  | cons x xs ih =>
    intro l' h
    unfold mapE at h
    cases hfx : f x with
    | error e => rw [hfx] at h; exact Except.noConfusion h
    | ok y =>
      rw [hfx] at h
      cases hrest : mapE f xs with
      | error e => rw [hrest] at h; exact Except.noConfusion h
      | ok ys =>
        rw [hrest] at h
        cases h
        unfold mapE
        rw [hf x y hfx, ih ys hrest]

theorem toDatetime_idem (P : String → Option Int) (v : TsVal) :
    toDatetime P (toDatetime P v) = toDatetime P v := by
  cases v with
  | raw s =>
    cases hp : P s with
    | none => simp [toDatetime, hp]
    | some t => simp [toDatetime, hp]
  | dt t => rfl
  | NaT => rfl

theorem convertFmi_idem (P : String → Option Int) (fmi : List WeatherRow) :
    convertFmi P (convertFmi P fmi) = convertFmi P fmi := by
  unfold convertFmi
  rw [List.map_map]
  apply List.map_congr_left
  intro r _
  simp [Function.comp, toDatetime_idem]

theorem processStop_frame (P : String → Option Int) (fmi : List WeatherRow)
    (matched : List MatchedRow) :
    ∀ stop stop', processStop P fmi matched stop = .ok stop' →
      stopFrame stop stop' := by
  intro stop stop' h
  cases hcode : stop.stationShortCode with
  | none =>
    unfold processStop at h
    rw [hcode] at h
    cases h
    exact ⟨rfl, rfl, rfl⟩
  | some code =>
    cases hsched : stop.scheduledTime with
    | none =>
      unfold processStop at h
      rw [hcode, hsched] at h
      cases h
      exact ⟨rfl, rfl, rfl⟩
    | some sched =>
      unfold processStop at h
      rw [hcode, hsched] at h
      dsimp only at h
      by_cases hif : code = "" ∨ sched = ""
      · rw [if_pos hif] at h
        cases h
        exact ⟨rfl, rfl, rfl⟩
      · rw [if_neg hif] at h
        cases hfind : matched.find? (fun r => r.train_station_short_code == code) with
        | none =>
          rw [hfind] at h
          cases h
          exact ⟨rfl, rfl, rfl⟩
        | some row =>
          rw [hfind] at h
          dsimp only at h
          cases hw : find_closest_weather P fmi row.closest_ems_station sched with
          | error e => rw [hw] at h; exact Except.noConfusion h
          | ok w =>
            rw [hw] at h
            cases h
            exact ⟨hcode.symm, hsched.symm, rfl⟩

theorem processTrain_frame (P : String → Option Int) (fmi : List WeatherRow)
    (matched : List MatchedRow) :
    ∀ tr tr', processTrain P fmi matched tr = .ok tr' → trainFrame tr tr' := by
  intro tr tr' h
  unfold processTrain at h
  cases hmap : mapE (processStop P fmi matched) tr.timeTableRows with
  | error e => rw [hmap] at h; exact Except.noConfusion h
  | ok rows =>
    rw [hmap] at h
    cases h
    exact ⟨rfl, rfl, mapE_ok_forall₂ _ _ (processStop_frame P fmi matched) _ _ hmap⟩

theorem processStop_idem (P : String → Option Int) (fmi : List WeatherRow)
    (matched : List MatchedRow) :
    ∀ s s', processStop P fmi matched s = .ok s' →
      processStop P fmi matched s' = .ok s' := by
  intro s s' h
  cases hcode : s.stationShortCode with
  | none =>
    unfold processStop at h
    rw [hcode] at h
    cases h
    unfold processStop
    rw [hcode]
  | some code =>
    cases hsched : s.scheduledTime with
    | none =>
      unfold processStop at h
      rw [hcode, hsched] at h
      cases h
      unfold processStop
      rw [hcode, hsched]
    | some sched =>
      unfold processStop at h
      rw [hcode, hsched] at h
      dsimp only at h
      by_cases hif : code = "" ∨ sched = ""
      · rw [if_pos hif] at h
        cases h
        unfold processStop
        rw [hcode, hsched]
        dsimp only
        rw [if_pos hif]
      · rw [if_neg hif] at h
        cases hfind : matched.find? (fun r => r.train_station_short_code == code) with
        | none =>
          rw [hfind] at h
          cases h
          unfold processStop
          rw [hcode, hsched]
          dsimp only
          rw [if_neg hif, hfind]
        | some row =>
          rw [hfind] at h
          dsimp only at h
          cases hw : find_closest_weather P fmi row.closest_ems_station sched with
          | error e => rw [hw] at h; exact Except.noConfusion h
          | ok w =>
            rw [hw] at h
            cases h
            unfold processStop
            dsimp only
            rw [if_neg hif, hfind]
            dsimp only
            rw [hw]

theorem processTrain_idem (P : String → Option Int) (fmi : List WeatherRow)
    (matched : List MatchedRow) :
    ∀ tr tr', processTrain P fmi matched tr = .ok tr' →
      processTrain P fmi matched tr' = .ok tr' := by
  intro tr tr' h
  unfold processTrain at h
  cases hmap : mapE (processStop P fmi matched) tr.timeTableRows with
  | error e => rw [hmap] at h; exact Except.noConfusion h
  | ok rows =>
    rw [hmap] at h
    cases h
    unfold processTrain
    dsimp only
    rw [mapE_idem _ (processStop_idem P fmi matched) _ _ hmap]

theorem find?_eq_getD_of_first (p : α → Bool) (d : α) :
    ∀ (l : List α) (i : Nat), i < l.length → p (l.getD i d) = true →
      (∀ j, j < i → p (l.getD j d) = false) →
      l.find? p = some (l.getD i d) := by
  intro l
  induction l with
  | nil =>
    intro i hi
    simp at hi
  | cons a as ih =>
    intro i hi hp hfirst
    cases i with
    | zero =>
      exact List.find?_cons_of_pos _ (by simpa using hp)
    | succ i =>
      have hpa : p a = false := by simpa using hfirst 0 (Nat.succ_pos i)
      rw [List.find?_cons_of_neg _ (by simp [hpa]), List.getD_cons_succ]
      exact ih i (by simpa using hi) (by simpa using hp)
        (fun j hj => by simpa using hfirst (j + 1) (by omega))

/-- Counterexample to C4: a batch with one unparseable scheduled time and
one good stop is aborted whole — the merge raises the parse error instead
of skipping the single stop and completing the rest. -/
theorem merge_parse_failure_aborts_counterexample :
    merge_train_weather_data parseW
        [⟨1, "2024-01-01", [stopBadTimeW, stopGoodW]⟩] fmiW matchedW =
      .error (.formatError "not-a-timestamp") := by decide

/-- C4 amended: a stop whose scheduled time fails to parse (and whose
station code has a match-table row) makes `merge_train_weather_data`
raise: the whole batch is aborted rather than just that stop skipped. -/
theorem merge_parse_failure_aborts (P : String → Option Int)
    (trains : List TrainRun) (fmi : List WeatherRow) (matched : List MatchedRow)
    (tr : TrainRun) (st : Stop) (code sched : String) (row : MatchedRow)
    (htr : tr ∈ trains) (hst : st ∈ tr.timeTableRows)
    (hcode : st.stationShortCode = some code) (hsched : st.scheduledTime = some sched)
    (hc : code ≠ "") (hs : sched ≠ "")
    (hrow : matched.find? (fun r => r.train_station_short_code == code) = some row)
    (hP : P sched = none) :
    ∃ e, merge_train_weather_data P trains fmi matched = .error e := by
  have hfw : find_closest_weather P (convertFmi P fmi) row.closest_ems_station sched =
      .error (.formatError sched) := by
    unfold find_closest_weather
    rw [hP]
  have hstop : processStop P (convertFmi P fmi) matched st =
      .error (.formatError sched) := by
    unfold processStop
    rw [hcode, hsched]
    dsimp only
    rw [if_neg (by simp [hc, hs]), hrow]
    dsimp only
    rw [hfw]
  obtain ⟨e1, he1⟩ := mapE_error_of_mem _ tr.timeTableRows st hst _ hstop
  have htrain : processTrain P (convertFmi P fmi) matched tr = .error e1 := by
    unfold processTrain
    rw [he1]
  obtain ⟨e2, he2⟩ := mapE_error_of_mem _ trains tr htr _ htrain
  refine ⟨e2, ?_⟩
  unfold merge_train_weather_data
  rw [he2]

/-- Witness for the amended C4 at the concrete aborting batch. -/
theorem merge_parse_failure_aborts_witness :
    (TrainRun.mk 1 "2024-01-01" [stopBadTimeW, stopGoodW] ∈
        [TrainRun.mk 1 "2024-01-01" [stopBadTimeW, stopGoodW]] ∧
      stopBadTimeW ∈ (TrainRun.mk 1 "2024-01-01" [stopBadTimeW, stopGoodW]).timeTableRows ∧
      parseW "not-a-timestamp" = none) ∧
    (∃ e, merge_train_weather_data parseW
        [TrainRun.mk 1 "2024-01-01" [stopBadTimeW, stopGoodW]] fmiW matchedW = .error e) :=
  ⟨⟨by decide, by decide, by decide⟩,
    merge_parse_failure_aborts parseW
      [TrainRun.mk 1 "2024-01-01" [stopBadTimeW, stopGoodW]] fmiW matchedW
      (TrainRun.mk 1 "2024-01-01" [stopBadTimeW, stopGoodW]) stopBadTimeW
      "HKI" "not-a-timestamp" ⟨"HKI", "Kaisaniemi"⟩
      (by decide) (by decide) rfl rfl (by decide) (by decide) (by decide) (by decide)⟩

/-- Counterexample to C5: a stop whose station code has no match-table row
is returned with NO `weather_observations` field at all (`none`), not with
the field set to an empty mapping. -/
theorem merge_unmatched_stop_counterexample :
    (merge_train_weather_data parseW [⟨1, "2024-01-01", [stopNoMatchW]⟩] fmiW matchedW =
      .ok ([⟨1, "2024-01-01", [stopNoMatchW]⟩], fmiWConverted)) ∧
    stopNoMatchW.weather_observations = none := ⟨by decide, rfl⟩

/-- C5 amended: a stop whose station code has no entry in the match table
is left completely unchanged by the joiner — the `weather_observations`
key is not added and no error is raised. -/
theorem unmatched_stop_left_unchanged (P : String → Option Int)
    (fmi : List WeatherRow) (matched : List MatchedRow) (stop : Stop)
    (code sched : String)
    (hcode : stop.stationShortCode = some code) (hsched : stop.scheduledTime = some sched)
    (hc : code ≠ "") (hs : sched ≠ "")
    (hnone : matched.find? (fun r => r.train_station_short_code == code) = none) :
    processStop P fmi matched stop = .ok stop := by
  unfold processStop
  rw [hcode, hsched]
  dsimp only
  rw [if_neg (by simp [hc, hs]), hnone]

/-- Witness for the amended C5 at the concrete unmatched stop. -/
theorem unmatched_stop_left_unchanged_witness :
    (stopNoMatchW.stationShortCode = some "XXX" ∧
      matchedW.find? (fun r => r.train_station_short_code == "XXX") = none) ∧
    processStop parseW fmiWConverted matchedW stopNoMatchW = .ok stopNoMatchW :=
  ⟨⟨rfl, by decide⟩,
    unmatched_stop_left_unchanged parseW fmiWConverted matchedW stopNoMatchW
      "XXX" "2024-01-01T10:30:00.000000Z" rfl rfl (by decide) (by decide) (by decide)⟩

/-- C9: a stop whose station short code or scheduled time is absent
(`None`) or the empty string is skipped silently: the stop is returned
unchanged (so no `weather_observations` key is added) and no error is
raised. -/
theorem falsy_stop_skipped (P : String → Option Int) (fmi : List WeatherRow)
    (matched : List MatchedRow) (stop : Stop)
    (h : stop.stationShortCode = none ∨ stop.stationShortCode = some "" ∨
         stop.scheduledTime = none ∨ stop.scheduledTime = some "") :
    processStop P fmi matched stop = .ok stop := by
  cases hcode : stop.stationShortCode with
  | none =>
    cases hsched : stop.scheduledTime with
    | none =>
      unfold processStop
      rw [hcode, hsched]
    | some s2 =>
      unfold processStop
      rw [hcode, hsched]
  | some c =>
    cases hsched : stop.scheduledTime with
    | none =>
      unfold processStop
      rw [hcode, hsched]
    | some s2 =>
      have hcs : c = "" ∨ s2 = "" := by
        rcases h with h | h | h | h
        · rw [hcode] at h
          exact Option.noConfusion h
        · rw [hcode] at h
          exact Or.inl (Option.some.inj h)
        · rw [hsched] at h
          exact Option.noConfusion h
        · rw [hsched] at h
          exact Or.inr (Option.some.inj h)
      unfold processStop
      rw [hcode, hsched]
      dsimp only
      rw [if_pos hcs]

/-- Witness for C9 at a stop with an empty station code. -/
theorem falsy_stop_skipped_witness :
    (stopEmptyCodeW.stationShortCode = none ∨ stopEmptyCodeW.stationShortCode = some "" ∨
      stopEmptyCodeW.scheduledTime = none ∨ stopEmptyCodeW.scheduledTime = some "") ∧
    processStop parseW fmiWConverted matchedW stopEmptyCodeW = .ok stopEmptyCodeW :=
  ⟨by decide,
    falsy_stop_skipped parseW fmiWConverted matchedW stopEmptyCodeW (by decide)⟩

/-- C10: when several match-table rows carry the same train-station short
code, the joiner uses the positionally first such row's weather station
(`.loc` selection followed by `.iloc[0]`) for every stop with that code. -/
theorem duplicate_match_rows_first_used (P : String → Option Int)
    (fmi : List WeatherRow) (matched : List MatchedRow) (stop : Stop)
    (code sched : String) (i : Nat)
    (hcode : stop.stationShortCode = some code) (hsched : stop.scheduledTime = some sched)
    (hc : code ≠ "") (hs : sched ≠ "")
    (hi : i < matched.length)
    (hmatch : (matched.getD i matchedDefault).train_station_short_code = code)
    (hfirst : ∀ j, j < i → (matched.getD j matchedDefault).train_station_short_code ≠ code) :
    processStop P fmi matched stop =
      match find_closest_weather P fmi
          (matched.getD i matchedDefault).closest_ems_station sched with
      | .error e => .error e
      | .ok w => .ok { stop with weather_observations := some w } := by
  have hfind : matched.find? (fun r => r.train_station_short_code == code) =
      some (matched.getD i matchedDefault) :=
    find?_eq_getD_of_first _ matchedDefault matched i hi (by simpa using hmatch)
      (fun j hj => by simpa using hfirst j hj)
  unfold processStop
  rw [hcode, hsched]
  dsimp only
  rw [if_neg (by simp [hc, hs]), hfind]

/-- Witness for C10: the concrete match table has two rows for `HKI`; the
first one (Kaisaniemi) is the one used. -/
theorem duplicate_match_rows_first_used_witness :
    (0 < matchedW.length ∧
      (matchedW.getD 0 matchedDefault).train_station_short_code = "HKI" ∧
      (matchedW.getD 1 matchedDefault).train_station_short_code = "HKI" ∧
      (matchedW.getD 0 matchedDefault).closest_ems_station = "Kaisaniemi") ∧
    processStop parseW fmiWConverted matchedW stopGoodW =
      match find_closest_weather parseW fmiWConverted
          (matchedW.getD 0 matchedDefault).closest_ems_station
          "2024-01-01T10:30:00.000000Z" with
      | .error e => .error e
      | .ok w => .ok { stopGoodW with weather_observations := some w } :=
  ⟨⟨by decide, by decide, by decide, by decide⟩,
    duplicate_match_rows_first_used parseW fmiWConverted matchedW stopGoodW
      "HKI" "2024-01-01T10:30:00.000000Z" 0 rfl rfl (by decide) (by decide)
      (by decide) (by decide) (fun j hj => absurd hj (Nat.not_lt_zero j))⟩

/-- Counterexample to C6: the joiner does NOT leave the
weather-observation input unchanged — the comment in the source even says
`convert inplace to avoid copies`. On an input whose timestamp is a raw
string, the observation table coming out of the run differs from the one
that went in (the string has been converted to a parsed instant). -/
theorem merge_mutates_observation_input :
    (merge_train_weather_data parseW [⟨1, "2024-01-01", [stopGoodW]⟩] fmiW matchedW =
      .ok ([⟨1, "2024-01-01", [stopGoodWOut]⟩], fmiWConverted)) ∧
    fmiWConverted ≠ fmiW := ⟨by decide, by decide⟩

/-- C6 amended: besides populating `weather_observations`, the joiner has
exactly one further observable effect — the in-place conversion of the
observation table's timestamp column (`convertFmi`); every other field of
every stop and train run is unchanged. -/
theorem merge_frame (P : String → Option Int) (trains : List TrainRun)
    (fmi : List WeatherRow) (matched : List MatchedRow)
    (ts : List TrainRun) (f' : List WeatherRow)
    (h : merge_train_weather_data P trains fmi matched = .ok (ts, f')) :
    f' = convertFmi P fmi ∧ List.Forall₂ trainFrame trains ts := by
  unfold merge_train_weather_data at h
  cases hmap : mapE (processTrain P (convertFmi P fmi) matched) trains with
  | error e => rw [hmap] at h; exact Except.noConfusion h
  | ok ts' =>
    rw [hmap] at h
    simp only [Except.ok.injEq, Prod.mk.injEq] at h
    obtain ⟨h1, h2⟩ := h
    subst h1
    exact ⟨h2.symm,
      mapE_ok_forall₂ _ _ (processTrain_frame P (convertFmi P fmi) matched) _ _ hmap⟩

/-- Witness for the amended C6 at the concrete run. -/
theorem merge_frame_witness :
    (merge_train_weather_data parseW [⟨1, "2024-01-01", [stopGoodW]⟩] fmiW matchedW =
      .ok ([⟨1, "2024-01-01", [stopGoodWOut]⟩], fmiWConverted)) ∧
    (fmiWConverted = convertFmi parseW fmiW ∧
      List.Forall₂ trainFrame [⟨1, "2024-01-01", [stopGoodW]⟩]
        [⟨1, "2024-01-01", [stopGoodWOut]⟩]) :=
  ⟨by decide,
    merge_frame parseW [⟨1, "2024-01-01", [stopGoodW]⟩] fmiW matchedW
      [⟨1, "2024-01-01", [stopGoodWOut]⟩] fmiWConverted (by decide)⟩

/-- C7: the Temporal Joiner is idempotent — feeding a successful run's
outputs (enriched trains and the once-converted observation table) back
through the joiner returns them unchanged. -/
theorem merge_idempotent (P : String → Option Int) (trains : List TrainRun)
    (fmi : List WeatherRow) (matched : List MatchedRow)
    (t1 : List TrainRun) (f1 : List WeatherRow)
    (h : merge_train_weather_data P trains fmi matched = .ok (t1, f1)) :
    merge_train_weather_data P t1 f1 matched = .ok (t1, f1) := by
  unfold merge_train_weather_data at h
  cases hmap : mapE (processTrain P (convertFmi P fmi) matched) trains with
  | error e => rw [hmap] at h; exact Except.noConfusion h
  | ok ts' =>
    rw [hmap] at h
    simp only [Except.ok.injEq, Prod.mk.injEq] at h
    obtain ⟨h1, h2⟩ := h
    subst h1
    subst h2
    unfold merge_train_weather_data
    rw [convertFmi_idem]
    rw [mapE_idem _ (processTrain_idem P (convertFmi P fmi) matched) _ _ hmap]

/-- Witness for C7: running the joiner twice on the concrete inputs gives
the same output as running it once. -/
theorem merge_idempotent_witness :
    (merge_train_weather_data parseW [⟨1, "2024-01-01", [stopGoodW]⟩] fmiW matchedW =
      .ok ([⟨1, "2024-01-01", [stopGoodWOut]⟩], fmiWConverted)) ∧
    merge_train_weather_data parseW [⟨1, "2024-01-01", [stopGoodWOut]⟩]
        fmiWConverted matchedW =
      .ok ([⟨1, "2024-01-01", [stopGoodWOut]⟩], fmiWConverted) :=
  ⟨by decide,
    merge_idempotent parseW [⟨1, "2024-01-01", [stopGoodW]⟩] fmiW matchedW
      [⟨1, "2024-01-01", [stopGoodWOut]⟩] fmiWConverted (by decide)⟩

end RailwayFMI
